import Mathlib

set_option linter.all false

/-
Shallow embedding of src/native/os_x11_linux.cc, the X11 window embedding
and capture engine.  Window handles, pixmap ids and graphics-context ids
are modelled as Nat.  Replies that the X server may fail to deliver
(NULL replies in the C code) are modelled as Option values.  Requests the
code sends to the server are recorded in an operation trace (List XOp);
read-only query requests issued by pure geometry helpers are not traced,
but the two queries issued at the start of an embed are, so that the
no-op paths of OSSetWindowParent are distinguishable from paths that talk
to the server.
-/

/-- Reply structure for an xcb get-geometry request: x and y are 16 bit signed
offsets relative to the parent, width and height are 16 bit unsigned sizes,
and root names the root window of the screen the drawable is on. -/
structure Geom where
  x : Int
  y : Int
  width : Nat
  height : Nat
  root : Nat
deriving DecidableEq

/-- Reply structure for an xcb query-tree request: the root window of the
screen and the parent of the queried window. -/
structure XTreeReply where
  root : Nat
  parent : Nat
deriving DecidableEq

/-- Model of the X server as seen through the query requests the code issues.
Both queries can fail (NULL reply), hence Option.  rootWindow is the global
root window handle from the x11 connection header. -/
structure XEnv where
  queryTree : Nat → Option XTreeReply
  getGeometry : Nat → Option Geom
  rootWindow : Nat

/-- Entry of the registry, from os.h as used by the code: the embedded
(caller) window and the frame window the engine created for it. -/
structure TrackedWindow where
  window : Nat
  frame : Nat
deriving DecidableEq

/-- Mutable globals of os_x11_linux.cc: the registry vector trackedWindows,
the id counter behind xcb_generate_id (fresh server-side ids), and the two
atomic thread flags windowThreadExists and windowThreadShouldRun. -/
structure EngineState where
  trackedWindows : List TrackedWindow
  nextId : Nat
  threadExists : Bool
  threadShouldRun : Bool
deriving DecidableEq

/-- Rectangle type of the binding layer.  Modelled from the spec: os.h is not
part of the sources here; the spec describes Bounds as x, y, width, height
with the default constructor producing zeroed bounds.  Fields are C ints. -/
structure JSRectangle where
  x : Int
  y : Int
  width : Int
  height : Int
deriving DecidableEq

/-- Capture request entry: one region to copy.  The caller-supplied
destination buffer pointer and byte size are not representable in the
embedding and play no role in which regions are read. -/
structure CaptureRect where
  rect : JSRectangle
deriving DecidableEq

/-- Operations (requests and state-machine events) the engine performs, in
program order.  Registry mutations and thread-flag writes are traced as well
so that ordering claims about shutdown can be stated. -/
inductive XOp where
  | queryTreeReq (w : Nat)
  | getGeometryReq (w : Nat)
  | pushTracked (window frame : Nat)
  | changeAttributes (w : Nat) (overrideRedirect : Bool)
  | createWindow (id parent : Nat) (width height : Nat)
  | mapWindow (id : Nat)
  | reparentWindow (w newParent : Nat) (x y : Int)
  | createGC (gc drawable : Nat)
  | setShouldRun (b : Bool)
  | setThreadExists (b : Bool)
  | startThread (gc : Nat)
  | flushConn
  | destroyWindow (id : Nat)
  | joinThread
  | clearTracked
  | eraseTracked (w : Nat)
  | configureXYWH (w : Nat) (x y width height : Int)
  | configureXY (w : Nat) (x y : Int)
  | shmAttach (drawable : Nat)
  | shmDetach
  | copyRegion (drawable : Nat) (x y width height : Int)
  | redirectWindow (w : Nat)
  | namePixmap (w pix : Nat)
  | freePixmap (pix : Nat)
deriving DecidableEq

/-- GetFrame from the source: the first registry entry whose window field
equals win, returning its frame field. -/
def GetFrame (win : Nat) (tws : List TrackedWindow) : Option Nat :=
  (tws.find? (fun tw => tw.window == win)).map TrackedWindow.frame

/-- SetBounds from the source (OSWindow::SetBounds): look the frame up; when
there is no frame do nothing at all; with a frame and a positive width and
height configure the frame to the requested rectangle and the embedded
window to the same size at local origin; otherwise configure only the frame
position; flush in both configure paths. -/
def SetBounds (tws : List TrackedWindow) (handle : Nat) (bounds : JSRectangle) : List XOp :=
  match GetFrame handle tws with
  | none => []
  | some frame =>
    if bounds.width > 0 ∧ bounds.height > 0 then
      [XOp.configureXYWH frame bounds.x bounds.y bounds.width bounds.height,
       XOp.configureXYWH handle 0 0 bounds.width bounds.height,
       XOp.flushConn]
    else
      [XOp.configureXY frame bounds.x bounds.y, XOp.flushConn]

/-- Wraparound of a signed 16 bit accumulator.  In the source the running
x and y of GetClientBounds are declared with auto from the int16 reply
fields, so every compound addition narrows back to int16. -/
def wrap16 (z : Int) : Int :=
  (z + 32768) % 65536 - 32768

/-- Loop body of OSWindow::GetClientBounds.  The source runs an unbounded
while loop over the ancestor chain; the chain in a live X tree is finite, and
the embedding makes that explicit with a fuel argument.  Stops when the tree
query fails, when the reported parent equals the root field of the current
geometry reply, or when the geometry query on the parent fails, keeping the
sum accumulated so far. -/
def getClientBoundsLoop (env : XEnv) : Nat → Nat → Int → Int → Geom → Int × Int
  | 0, _, x, y, _ => (x, y)
  | Nat.succ fuel, window, x, y, reply =>
    match env.queryTree window with
    | none => (x, y)
    | some t =>
      if t.parent = reply.root then (x, y)
      else
        match env.getGeometry t.parent with
        | none => (x, y)
        | some g =>
          getClientBoundsLoop env fuel t.parent (wrap16 (x + g.x)) (wrap16 (y + g.y)) g

/-- GetClientBounds from the source (OSWindow::GetClientBounds): the own
geometry of the handle gives width, height and the starting offset; the loop
then walks the ancestor chain adding parent offsets.  A failed initial
geometry query yields zeroed bounds. -/
def GetClientBounds (env : XEnv) (fuel : Nat) (handle : Nat) : JSRectangle :=
  match env.getGeometry handle with
  | none => ⟨0, 0, 0, 0⟩
  | some g =>
    let p := getClientBoundsLoop env fuel handle g.x g.y g
    ⟨p.1, p.2, (g.width : Int), (g.height : Int)⟩

/-- OSSetWindowParent from the source.  A non-zero parent is an embed
request: the code queries the tree of the parent and the geometry of the
window, and proceeds only when the tree reply arrived and the reported
parent of the parent differs from the root; it then generates a frame id,
appends to the registry, sets override-redirect on the window, creates and
maps the frame, reparents the window into it, starts the event thread when
none exists (generating a further id for the shared graphics context), and
flushes.  When the embed proceeds but the geometry reply is NULL the C code
dereferences a null pointer; that undefined behaviour is modelled as none.
A zero parent is an un-embed request handled through GetFrame: no entry
means no action; the sole entry triggers the synchronous shutdown sequence
(run flag off, destroy frame, flush, join, clear), after which the joined
thread has set the exists flag to false; otherwise the frame is destroyed
and every entry of the window removed. -/
def OSSetWindowParent (env : XEnv) (st : EngineState) (window parent : Nat) :
    Option (EngineState × List XOp) :=
  if parent ≠ 0 then
    match env.queryTree parent, env.getGeometry window with
    | some tree, geometry =>
      if tree.parent ≠ tree.root then
        match geometry with
        | none => none
        | some geom =>
          let id := st.nextId
          let tracked := st.trackedWindows ++ [⟨window, id⟩]
          let baseOps : List XOp :=
            [XOp.queryTreeReq parent, XOp.getGeometryReq window,
             XOp.pushTracked window id,
             XOp.changeAttributes window true,
             XOp.createWindow id tree.parent geom.width geom.height,
             XOp.mapWindow id,
             XOp.reparentWindow window id 0 0]
          if !st.threadExists then
            some (⟨tracked, id + 2, true, true⟩,
                  baseOps ++ [XOp.createGC (id + 1) id, XOp.setShouldRun true,
                              XOp.setThreadExists true, XOp.startThread (id + 1),
                              XOp.flushConn])
          else
            some (⟨tracked, id + 1, st.threadExists, st.threadShouldRun⟩,
                  baseOps ++ [XOp.flushConn])
      else
        some (st, [XOp.queryTreeReq parent, XOp.getGeometryReq window])
    | none, _ =>
      some (st, [XOp.queryTreeReq parent, XOp.getGeometryReq window])
  else
    match GetFrame window st.trackedWindows with
    | none => some (st, [])
    | some frame =>
      if st.trackedWindows.length = 1 then
        some (⟨[], st.nextId, false, false⟩,
              [XOp.reparentWindow window env.rootWindow 0 0, XOp.setShouldRun false,
               XOp.destroyWindow frame, XOp.flushConn, XOp.joinThread, XOp.clearTracked])
      else
        some (⟨st.trackedWindows.filter (fun tw => tw.window ≠ window), st.nextId,
               st.threadExists, st.threadShouldRun⟩,
              [XOp.reparentWindow window env.rootWindow 0 0, XOp.destroyWindow frame,
               XOp.flushConn, XOp.eraseTracked window])

/-- Replay of a sequence of OSSetWindowParent calls; each list element is a
pair of window and parent handles.  A call that hits the modelled undefined
behaviour aborts the replay. -/
def replay (env : XEnv) : EngineState → List (Nat × Nat) → Option EngineState
  | st, [] => some st
  | st, (w, p) :: rest =>
    match OSSetWindowParent env st w p with
    | none => none
    | some (st2, _) => replay env st2 rest

/-- Initial engine state: empty registry, thread not running, id counter at
an arbitrary starting value n. -/
def initState (n : Nat) : EngineState :=
  ⟨[], n, false, false⟩

/-- Discipline on a call sequence: every embed call (non-zero parent) names a
window that has no registry entry at that point of the replay.  This is the
qualification under which the spec states the uniqueness property. -/
def embedsFresh (env : XEnv) : EngineState → List (Nat × Nat) → Bool
  | _, [] => true
  | st, (w, p) :: rest =>
    (p == 0 || st.trackedWindows.all (fun tw => tw.window != w)) &&
    (match OSSetWindowParent env st w p with
     | none => true
     | some (st2, _) => embedsFresh env st2 rest)

/-- Uniqueness of the embedded window handles across the registry. -/
def WindowsNodup (st : EngineState) : Prop :=
  (st.trackedWindows.map TrackedWindow.window).Nodup

/-- Uniqueness of the frame handles across the registry. -/
def FramesNodup (st : EngineState) : Prop :=
  (st.trackedWindows.map TrackedWindow.frame).Nodup

/-- Auxiliary invariant: every frame handle in the registry is below the id
counter, so a freshly generated id is new. -/
def FramesBounded (st : EngineState) : Prop :=
  ∀ f ∈ st.trackedWindows.map TrackedWindow.frame, f < st.nextId

/-- Read cap of the class property request in GetRsHandlesRecursively. -/
def longLength : Nat := 4096

/-- C string prefix: the characters before the first null. -/
def cstring (l : List Char) : List Char :=
  l.takeWhile (fun c => c ≠ Char.ofNat 0)

/-- Class-name extraction of the source: the property bytes are copied into
a zeroed buffer of longLength bytes; the instance name is the first
null-terminated string, the class name the second. -/
def classNameOf (value : List Char) : List Char :=
  let buffer := value ++ List.replicate (longLength - value.length) (Char.ofNat 0)
  cstring (buffer.drop ((cstring buffer).length + 1))

/-- Per-node match test of GetRsHandlesRecursively: the WM_CLASS property of
the child must be readable, its reported length positive and strictly below
the read cap, and the extracted class name must be RuneScape or
steam_app_1343400.  The reported length of an xcb property reply is the
length of the returned bytes. -/
def matchesClass (prop : Nat → Option (List Char)) (child : Nat) : Bool :=
  match prop child with
  | none => false
  | some value =>
    decide (0 < value.length) && decide (value.length < longLength) &&
      (classNameOf value == "RuneScape".data || classNameOf value == "steam_app_1343400".data)

/-- Deepest-match accumulator update of the source: a match strictly deeper
than the current maximum resets the output list, a match at the current
maximum appends, a shallower match is dropped. -/
def rsStep (st : List Nat × Nat) (cd : Nat × Nat) : List Nat × Nat :=
  if cd.2 > st.2 then ([cd.1], cd.2)
  else if cd.2 = st.2 then (st.1 ++ [cd.1], st.2)
  else st

/-- Window tree as the traversal sees it: each node carries its handle and
the children reported by the query-tree request on it, none modelling a
NULL reply (in which case the source returns without descending). -/
inductive XTree where
  | node (handle : Nat) (children : Option (List XTree))

/-- Handle of a tree node. -/
def XTree.handle : XTree → Nat
  | XTree.node h _ => h

mutual
/-- GetRsHandlesRecursively from the source, with the output vector and the
deepest counter threaded as state: for each child, first test its class
property at the current depth and update the accumulator, then recurse into
the child at depth + 1. -/
def GetRsHandlesRecursively (prop : Nat → Option (List Char)) :
    XTree → List Nat × Nat → Nat → List Nat × Nat
  | XTree.node _ none, st, _ => st
  | XTree.node _ (some cs), st, depth => getRsChildren prop cs st depth

/-- Child loop of GetRsHandlesRecursively. -/
def getRsChildren (prop : Nat → Option (List Char)) :
    List XTree → List Nat × Nat → Nat → List Nat × Nat
  | [], st, _ => st
  | t :: ts, st, depth =>
    let st1 := if matchesClass prop t.handle then rsStep st (t.handle, depth) else st
    let st2 := GetRsHandlesRecursively prop t st1 (depth + 1)
    getRsChildren prop ts st2 depth
end

/-- OSGetRsHandles from the source: run the traversal from the root tree
with an empty output and deepest counter zero, starting depth zero. -/
def OSGetRsHandles (prop : Nat → Option (List Char)) (rootTree : XTree) : List Nat :=
  (GetRsHandlesRecursively prop rootTree ([], 0) 0).1

mutual
/-- Matching descendants of a node in traversal order, paired with their
depth (children of the traversal root have depth zero, as in the source). -/
def matchesIn (prop : Nat → Option (List Char)) : XTree → Nat → List (Nat × Nat)
  | XTree.node _ none, _ => []
  | XTree.node _ (some cs), depth => matchesInList prop cs depth

/-- Matching nodes of a child list in traversal order. -/
def matchesInList (prop : Nat → Option (List Char)) : List XTree → Nat → List (Nat × Nat)
  | [], _ => []
  | t :: ts, depth =>
    (if matchesClass prop t.handle then [(t.handle, depth)] else []) ++
      matchesIn prop t (depth + 1) ++ matchesInList prop ts depth
end

mutual
/-- All descendants of a node in traversal order, paired with their depth. -/
def descOf : XTree → Nat → List (Nat × Nat)
  | XTree.node _ none, _ => []
  | XTree.node _ (some cs), depth => descList cs depth

/-- All nodes of a child list in traversal order, paired with their depth. -/
def descList : List XTree → Nat → List (Nat × Nat)
  | [], _ => []
  | t :: ts, depth => (t.handle, depth) :: (descOf t (depth + 1) ++ descList ts depth)
end

mutual
/-- Whether every tree query in the subtree succeeds, so the traversal
visits every descendant. -/
def allReadable : XTree → Bool
  | XTree.node _ none => false
  | XTree.node _ (some cs) => allReadableList cs

/-- allReadable over a child list. -/
def allReadableList : List XTree → Bool
  | [] => true
  | t :: ts => allReadable t && allReadableList ts
end

/-- Running maximum of the depth components, seeded with d. -/
def maxFrom (d : Nat) (L : List (Nat × Nat)) : Nat :=
  L.foldl (fun a cd => max a cd.2) d

/-- Wrapped accumulation of the x offsets along a chain of geometry replies,
mirroring the int16 compound additions of the client-bounds loop. -/
def accX (x : Int) (gs : List Geom) : Int :=
  gs.foldl (fun a g => wrap16 (a + g.x)) x

/-- Wrapped accumulation of the y offsets along a chain of geometry replies. -/
def accY (y : Int) (gs : List Geom) : Int :=
  gs.foldl (fun a g => wrap16 (a + g.y)) y

/-- Upward walk of the client-bounds loop, described as a relation: from
window w whose current geometry reply is g, the walk reads the listed
geometry replies of successive parents and then stops, either because a tree
query fails, because the reported parent equals the root of the current
geometry reply, or because a geometry query fails. -/
inductive Walk (env : XEnv) : Nat → Geom → List Geom → Prop where
  | treeFail : ∀ w g, env.queryTree w = none → Walk env w g []
  | atRoot : ∀ w g t, env.queryTree w = some t → t.parent = g.root → Walk env w g []
  | geomFail : ∀ w g t, env.queryTree w = some t → t.parent ≠ g.root →
      env.getGeometry t.parent = none → Walk env w g []
  | step : ∀ w g t g2 gs, env.queryTree w = some t → t.parent ≠ g.root →
      env.getGeometry t.parent = some g2 → Walk env t.parent g2 gs →
      Walk env w g (g2 :: gs)

/-- Capture mode of the binding layer.  Modelled from the spec: os.h with
the CaptureMode enumeration is not among the sources; the spec names Desktop
and Window as the supported modes and calls every other value a caller
error, so the remaining values are modelled by a catch-all constructor. -/
inductive CaptureMode where
  | Desktop
  | Window
  | other (code : Nat)
deriving DecidableEq

/-- OSCaptureDesktopMulti from the source: attach the shared-memory acquirer
to the root window, resolve the client bounds of the source window, and copy
every rectangle offset by that position; the acquirer detaches when it goes
out of scope.  Modelled from the spec for the parts in linux/shm.h, which is
not among the sources: XShmCapture attaches a reusable shared segment on
construction, copies regions from its drawable, and detaches on
destruction. -/
def OSCaptureDesktopMulti (env : XEnv) (fuel : Nat) (wnd : Nat)
    (rects : List CaptureRect) : List XOp :=
  let offset := GetClientBounds env fuel wnd
  XOp.shmAttach env.rootWindow ::
    (rects.map (fun r =>
      XOp.copyRegion env.rootWindow (r.rect.x + offset.x) (r.rect.y + offset.y)
        r.rect.width r.rect.height) ++ [XOp.shmDetach])

/-- OSCaptureWindowMulti from the source: redirect the window, generate a
pixmap id and bind the window contents to it, query the pixmap geometry; on
a NULL reply free the pixmap and return with nothing copied; otherwise
attach the shared-memory acquirer to the pixmap, copy every rectangle with
window-relative coordinates, free the pixmap, and let the acquirer detach at
scope exit.  The pixmap id generation is modelled by the pixId argument. -/
def OSCaptureWindowMulti (env : XEnv) (pixId : Nat) (wnd : Nat)
    (rects : List CaptureRect) : List XOp :=
  match env.getGeometry pixId with
  | none =>
    [XOp.redirectWindow wnd, XOp.namePixmap wnd pixId, XOp.freePixmap pixId]
  | some _ =>
    [XOp.redirectWindow wnd, XOp.namePixmap wnd pixId, XOp.shmAttach pixId] ++
      rects.map (fun r =>
        XOp.copyRegion pixId r.rect.x r.rect.y r.rect.width r.rect.height) ++
      [XOp.freePixmap pixId, XOp.shmDetach]

/-- OSCaptureMulti from the source: dispatch on the mode; any mode other
than Desktop or Window throws a RangeError before issuing any request.  The
result pairs the operation trace with the error message of a thrown
exception, if any. -/
def OSCaptureMulti (env : XEnv) (fuel pixId : Nat) (wnd : Nat) (mode : CaptureMode)
    (rects : List CaptureRect) : List XOp × Option String :=
  match mode with
  | CaptureMode.Desktop => (OSCaptureDesktopMulti env fuel wnd rects, none)
  | CaptureMode.Window => (OSCaptureWindowMulti env pixId wnd rects, none)
  | CaptureMode.other _ => ([], some "Capture mode not supported")

/-- Test for a region copy in a trace. -/
def isCopyOp : XOp → Bool
  | XOp.copyRegion _ _ _ _ _ => true
  | _ => false

/-- Test for a shared-memory attach in a trace. -/
def isShmAttachOp : XOp → Bool
  | XOp.shmAttach _ => true
  | _ => false

/-- Test for a shared-memory detach in a trace. -/
def isShmDetachOp : XOp → Bool
  | XOp.shmDetach => true
  | _ => false

/-- Environment with no reachable server data, used for concrete instances. -/
def envNone : XEnv :=
  ⟨fun _ => none, fun _ => none, 0⟩

/-- Concrete environment for replay instances: window 2 is a nested parent
(its own parent 5 differs from the root 9), and windows 1 and 3 have
geometry. -/
def envC1 : XEnv :=
  ⟨fun w => if w = 2 then some ⟨9, 5⟩ else none,
   fun w => if w = 1 ∨ w = 3 then some ⟨0, 0, 640, 480, 9⟩ else none,
   9⟩

/-- Concrete environment in which window 5 is a top-level window: its
reported parent equals the root. -/
def envC2 : XEnv :=
  ⟨fun w => if w = 5 then some ⟨7, 7⟩ else none, fun _ => none, 7⟩

/-- Concrete environment for the client-bounds wraparound instance: window 1
sits at x offset 30000 inside window 2, which sits at x offset 30000 below
the root. -/
def envC4 : XEnv :=
  ⟨fun w => if w = 1 then some ⟨9, 2⟩ else if w = 2 then some ⟨9, 9⟩ else none,
   fun w =>
     if w = 1 then some ⟨30000, 0, 640, 480, 9⟩
     else if w = 2 then some ⟨30000, 0, 100, 100, 9⟩ else none,
   9⟩

/-- Concrete environment for the client-bounds accumulation instance with
small offsets. -/
def envC4w : XEnv :=
  ⟨fun w => if w = 1 then some ⟨9, 2⟩ else if w = 2 then some ⟨9, 9⟩ else none,
   fun w =>
     if w = 1 then some ⟨3, 4, 640, 480, 9⟩
     else if w = 2 then some ⟨4, 5, 100, 100, 9⟩ else none,
   9⟩

/-- Concrete environment for the desktop capture instance: the source window
7 has client bounds at position 100, 200. -/
def envC6 : XEnv :=
  ⟨fun w => if w = 7 then some ⟨1, 1⟩ else none,
   fun w => if w = 7 then some ⟨100, 200, 30, 40, 1⟩ else none,
   1⟩

/-- Property value carrying the class name RuneScape after the instance
name. -/
def valRs : List Char :=
  'i' :: Char.ofNat 0 :: ("RuneScape".data ++ [Char.ofNat 0])

/-- Property value carrying a class name outside the allow-list. -/
def valOther : List Char :=
  'i' :: Char.ofNat 0 :: ("Other".data ++ [Char.ofNat 0])

/-- Property map for the discovery instance: nodes 20, 21, 40 and 41 carry
the RuneScape class, everything else a foreign class. -/
def propC5 : Nat → Option (List Char) := fun w =>
  if w = 20 ∨ w = 21 ∨ w = 40 ∨ w = 41 then some valRs else some valOther

/-- Window tree for the discovery instance: matches 20 and 21 at depth 2 and
matches 40 and 41 at depth 4 (children of the traversal root have depth
zero). -/
def treeC5 : XTree :=
  XTree.node 0 (some
    [XTree.node 1 (some
      [XTree.node 2 (some
        [XTree.node 20 (some []),
         XTree.node 21 (some []),
         XTree.node 3 (some
          [XTree.node 4 (some
            [XTree.node 40 (some []),
             XTree.node 41 (some [])])])])])])

/-- C2: when the tree query on a non-zero parent reports that the parent of
that window equals the root, OSSetWindowParent only issues the two initial
read queries and returns: the engine state (registry, id counter, thread
flags) is unchanged, no frame is created, the window is not reparented, and
the event thread is not started. -/
theorem c2_toplevel_parent_noop (env : XEnv) (st : EngineState) (w p : Nat)
    (t : XTreeReply) (hp : p ≠ 0) (ht : env.queryTree p = some t)
    (hroot : t.parent = t.root) :
    OSSetWindowParent env st w p =
      some (st, [XOp.queryTreeReq p, XOp.getGeometryReq w]) := by
  simp [OSSetWindowParent, hp, ht, hroot]

/-- Witness for c2_toplevel_parent_noop at a concrete environment. -/
theorem c2_witness :
    OSSetWindowParent envC2 (initState 0) 3 5 =
      some (initState 0, [XOp.queryTreeReq 5, XOp.getGeometryReq 3]) :=
  c2_toplevel_parent_noop envC2 (initState 0) 3 5 ⟨7, 7⟩ (by decide) rfl rfl

/-- C3: un-embedding the window that forms the only registry entry performs,
in order, the reparent back to the root, the stop signal to the event
thread run flag, the destruction of the frame, the flush, the synchronous
join, and the clearing of the registry; the state after the call has an
empty registry and the event thread fully exited. -/
theorem c3_last_unembed_shutdown (env : XEnv) (st : EngineState) (w f : Nat)
    (h : st.trackedWindows = [⟨w, f⟩]) :
    OSSetWindowParent env st w 0 =
      some (⟨[], st.nextId, false, false⟩,
            [XOp.reparentWindow w env.rootWindow 0 0, XOp.setShouldRun false,
             XOp.destroyWindow f, XOp.flushConn, XOp.joinThread, XOp.clearTracked]) := by
  simp [OSSetWindowParent, GetFrame, h, List.find?]

/-- Witness for c3_last_unembed_shutdown at a concrete state. -/
theorem c3_witness :
    OSSetWindowParent envNone ⟨[⟨4, 8⟩], 20, true, true⟩ 4 0 =
      some (⟨[], 20, false, false⟩,
            [XOp.reparentWindow 4 0 0 0, XOp.setShouldRun false,
             XOp.destroyWindow 8, XOp.flushConn, XOp.joinThread, XOp.clearTracked]) :=
  c3_last_unembed_shutdown envNone ⟨[⟨4, 8⟩], 20, true, true⟩ 4 8 rfl

/-- C7: OSCaptureMulti with any mode other than Desktop or Window reports the
caller-contract RangeError synchronously and performs no operation at all:
the trace is empty and the error message is the thrown one. -/
theorem c7_bad_mode_error (env : XEnv) (fuel pixId wnd n : Nat)
    (rects : List CaptureRect) :
    OSCaptureMulti env fuel pixId wnd (CaptureMode.other n) rects =
      ([], some "Capture mode not supported") := rfl

/-- C9: calling OSSetWindowParent with parent zero for a window that has no
registry entry is a no-op: no request is issued, the state is unchanged and
no error arises. -/
theorem c9_unembed_missing_noop (env : XEnv) (st : EngineState) (w : Nat)
    (h : ∀ tw ∈ st.trackedWindows, tw.window ≠ w) :
    OSSetWindowParent env st w 0 = some (st, []) := by
  have hfind : st.trackedWindows.find? (fun tw => tw.window == w) = none := by
    rw [List.find?_eq_none]
    intro tw htw
    simpa using h tw htw
  have hf : GetFrame w st.trackedWindows = none := by
    simp [GetFrame, hfind]
  simp [OSSetWindowParent, hf]

/-- Witness for c9_unembed_missing_noop at a concrete state. -/
theorem c9_witness : OSSetWindowParent envNone (initState 0) 4 0 = some (initState 0, []) :=
  c9_unembed_missing_noop envNone (initState 0) 4 (by simp [initState])

/-- C10: SetBounds on a handle with no registry entry issues no configure and
no flush request; with an entry but a width or height that is not positive it
issues only the position configure on the frame and the flush, so neither the
frame size nor the embedded window geometry is touched. -/
theorem c10_setbounds_guard (tws : List TrackedWindow) (handle : Nat)
    (bounds : JSRectangle) :
    (GetFrame handle tws = none → SetBounds tws handle bounds = []) ∧
    (∀ frame, GetFrame handle tws = some frame →
      ¬(bounds.width > 0 ∧ bounds.height > 0) →
      SetBounds tws handle bounds =
        [XOp.configureXY frame bounds.x bounds.y, XOp.flushConn]) := by
  constructor
  · intro h
    simp [SetBounds, h]
  · intro frame h hneg
    simp [SetBounds, h, hneg]

/-- Witness for c10_setbounds_guard at concrete inputs: an empty registry and
a registry entry with a zero requested width. -/
theorem c10_witness :
    SetBounds [] 1 ⟨1, 2, 3, 4⟩ = [] ∧
    SetBounds [⟨2, 9⟩] 2 ⟨5, 6, 0, 7⟩ = [XOp.configureXY 9 5 6, XOp.flushConn] :=
  ⟨(c10_setbounds_guard [] 1 ⟨1, 2, 3, 4⟩).1 rfl,
   (c10_setbounds_guard [⟨2, 9⟩] 2 ⟨5, 6, 0, 7⟩).2 9 (by decide) (by decide)⟩

/-- Characterization of the client-bounds loop along a walk: with enough
fuel, the loop returns exactly the wrapped accumulation of the offsets read
along the walk, whatever the reason the walk stops. -/
theorem getClientBoundsLoop_walk (env : XEnv) {w : Nat} {g : Geom} {gs : List Geom}
    (hwalk : Walk env w g gs) :
    ∀ fuel x y, gs.length ≤ fuel →
      getClientBoundsLoop env fuel w x y g = (accX x gs, accY y gs) := by
  induction hwalk with
  | treeFail w g ht =>
    intro fuel x y _
    cases fuel <;> simp [getClientBoundsLoop, ht, accX, accY]
  | atRoot w g t ht hr =>
    intro fuel x y _
    cases fuel <;> simp [getClientBoundsLoop, ht, hr, accX, accY]
  | geomFail w g t ht hr hg =>
    intro fuel x y _
    cases fuel <;> simp [getClientBoundsLoop, ht, hr, hg, accX, accY]
  | step w g t g2 gs ht hr hg hrec ih =>
    intro fuel x y hlen
    cases fuel with
    | zero => simp at hlen
    | succ fuel =>
      simp only [getClientBoundsLoop, ht, hr, hg, accX, accY, List.foldl_cons,
        if_neg hr]
      exact ih fuel (wrap16 (x + g2.x)) (wrap16 (y + g2.y)) (by simpa using hlen)

/-- C4 (amended): when the initial geometry query fails, GetClientBounds
returns zeroed bounds; when it succeeds, the result carries the own width
and height of the handle and a position obtained from the own offset by
folding in the offset of each ancestor read along the upward walk with
16 bit signed wraparound at every addition (the accumulator of the source
is a 16 bit variable), whether the walk ends at the root or stops early at
a failed query, in which case the value is the partial accumulation. -/
theorem c4_client_bounds_sum (env : XEnv) (fuel : Nat) (handle : Nat) :
    (env.getGeometry handle = none → GetClientBounds env fuel handle = ⟨0, 0, 0, 0⟩) ∧
    (∀ g gs, env.getGeometry handle = some g → Walk env handle g gs →
      gs.length ≤ fuel →
      GetClientBounds env fuel handle =
        ⟨accX g.x gs, accY g.y gs, (g.width : Int), (g.height : Int)⟩) := by
  constructor
  · intro h
    simp [GetClientBounds, h]
  · intro g gs hg hwalk hlen
    simp [GetClientBounds, hg, getClientBoundsLoop_walk env hwalk fuel g.x g.y hlen]

/-- C4 counterexample to the claim as stated: in envC4 window 1 has its own
offset 30000 and one ancestor offset 30000 before the root, so the claim
predicts position x equal to 60000, but the 16 bit accumulator of the code
wraps and GetClientBounds returns -5536. -/
theorem c4_counterexample :
    GetClientBounds envC4 10 1 = ⟨-5536, 0, 640, 480⟩ ∧
    (GetClientBounds envC4 10 1).x ≠ 30000 + 30000 := by
  exact ⟨by decide, by decide⟩

/-- Witness for c4_client_bounds_sum: a concrete chain of one ancestor with
small offsets, where the wrapped accumulation coincides with the plain sum. -/
theorem c4_witness : GetClientBounds envC4w 10 1 = ⟨7, 9, 640, 480⟩ := by
  have hwalk : Walk envC4w 1 ⟨3, 4, 640, 480, 9⟩ [⟨4, 5, 100, 100, 9⟩] :=
    Walk.step 1 ⟨3, 4, 640, 480, 9⟩ ⟨9, 2⟩ ⟨4, 5, 100, 100, 9⟩ [] rfl (by decide) rfl
      (Walk.atRoot 2 ⟨4, 5, 100, 100, 9⟩ ⟨9, 9⟩ rfl rfl)
  have h := (c4_client_bounds_sum envC4w 10 1).2 ⟨3, 4, 640, 480, 9⟩
    [⟨4, 5, 100, 100, 9⟩] rfl hwalk (by decide)
  exact h.trans (by decide)

/-- Filtering a pure copy trace built by map keeps every element. -/
theorem filter_copy_map (rects : List CaptureRect) (f : CaptureRect → XOp)
    (hf : ∀ r, isCopyOp (f r) = true) :
    (rects.map f).filter isCopyOp = rects.map f := by
  rw [List.filter_eq_self]
  intro a ha
  obtain ⟨r, _, rfl⟩ := List.mem_map.1 ha
  exact hf r

/-- C6: desktop capture reads, for every requested rectangle, exactly the
region of the root window whose origin is the rectangle origin shifted by
the position of the resolved client bounds of the source window; at the
concrete instance of the spec, the rectangle 10 10 50 50 against client
bounds at 100 200 reads the region 110 210 50 50. -/
theorem c6_desktop_offset :
    (∀ env fuel wnd rects,
      (OSCaptureDesktopMulti env fuel wnd rects).filter isCopyOp =
        rects.map (fun r =>
          XOp.copyRegion env.rootWindow
            (r.rect.x + (GetClientBounds env fuel wnd).x)
            (r.rect.y + (GetClientBounds env fuel wnd).y)
            r.rect.width r.rect.height)) ∧
    (OSCaptureDesktopMulti envC6 1 7 [⟨⟨10, 10, 50, 50⟩⟩]).filter isCopyOp =
      [XOp.copyRegion 1 110 210 50 50] := by
  constructor
  · intro env fuel wnd rects
    simp only [OSCaptureDesktopMulti, List.filter_cons, List.filter_append]
    rw [filter_copy_map rects (fun r =>
      XOp.copyRegion env.rootWindow
        (r.rect.x + (GetClientBounds env fuel wnd).x)
        (r.rect.y + (GetClientBounds env fuel wnd).y)
        r.rect.width r.rect.height) (fun r => rfl)]
    simp [isCopyOp]
  · decide

/-- C8: in a window capture whose geometry query on the named pixmap fails,
the call frees the pixmap and returns normally with zero rectangles copied;
on both exit paths the trace frees the generated pixmap and balances every
shared-memory attach with a detach. -/
theorem c8_window_capture_cleanup (env : XEnv) (pixId wnd : Nat)
    (rects : List CaptureRect) :
    (env.getGeometry pixId = none →
      OSCaptureWindowMulti env pixId wnd rects =
        [XOp.redirectWindow wnd, XOp.namePixmap wnd pixId, XOp.freePixmap pixId] ∧
      (OSCaptureWindowMulti env pixId wnd rects).filter isCopyOp = []) ∧
    XOp.freePixmap pixId ∈ OSCaptureWindowMulti env pixId wnd rects ∧
    ((OSCaptureWindowMulti env pixId wnd rects).filter isShmAttachOp).length =
      ((OSCaptureWindowMulti env pixId wnd rects).filter isShmDetachOp).length := by
  cases hg : env.getGeometry pixId with
  | none =>
    refine ⟨fun _ => ⟨by simp [OSCaptureWindowMulti, hg], ?_⟩, ?_, ?_⟩
    · simp [OSCaptureWindowMulti, hg, isCopyOp]
    · simp [OSCaptureWindowMulti, hg]
    · simp [OSCaptureWindowMulti, hg, isShmAttachOp, isShmDetachOp]
  | some g =>
    have hmapAttach : (rects.map (fun r =>
        XOp.copyRegion pixId r.rect.x r.rect.y r.rect.width r.rect.height)).filter
          isShmAttachOp = [] := by
      rw [List.filter_eq_nil]
      intro a ha
      obtain ⟨r, _, rfl⟩ := List.mem_map.1 ha
      simp [isShmAttachOp]
    have hmapDetach : (rects.map (fun r =>
        XOp.copyRegion pixId r.rect.x r.rect.y r.rect.width r.rect.height)).filter
          isShmDetachOp = [] := by
      rw [List.filter_eq_nil]
      intro a ha
      obtain ⟨r, _, rfl⟩ := List.mem_map.1 ha
      simp [isShmDetachOp]
    refine ⟨fun hnone => absurd hnone (by simp [hg]), ?_, ?_⟩
    · simp [OSCaptureWindowMulti, hg]
    · simp only [OSCaptureWindowMulti, hg, List.filter_append, List.filter_cons]
      rw [hmapAttach, hmapDetach]
      simp [isShmAttachOp, isShmDetachOp]

/-- Witness for c8_window_capture_cleanup: a concrete capture in which the
pixmap geometry query fails. -/
theorem c8_witness :
    OSCaptureWindowMulti envNone 5 3 [] =
      [XOp.redirectWindow 3, XOp.namePixmap 3 5, XOp.freePixmap 5] ∧
    (OSCaptureWindowMulti envNone 5 3 []).filter isCopyOp = [] :=
  (c8_window_capture_cleanup envNone 5 3 []).1 rfl

/-- Appending an entry with a frame above every existing frame keeps the
frame handles pairwise distinct. -/
theorem framesNodup_append (tws : List TrackedWindow) (w i : Nat)
    (hnd : (tws.map TrackedWindow.frame).Nodup)
    (hbd : ∀ f ∈ tws.map TrackedWindow.frame, f < i) :
    ((tws ++ [(⟨w, i⟩ : TrackedWindow)]).map TrackedWindow.frame).Nodup := by
  rw [List.map_append]
  refine List.Nodup.append hnd (List.nodup_singleton i) ?_
  intro a ha hb
  simp only [List.map_cons, List.map_nil, List.mem_singleton] at hb
  subst hb
  exact absurd (hbd a ha) (lt_irrefl a)

/-- Appending an entry for a window absent from the registry keeps the
window handles pairwise distinct. -/
theorem windowsNodup_append (tws : List TrackedWindow) (w i : Nat)
    (hnd : (tws.map TrackedWindow.window).Nodup)
    (hw : ∀ tw ∈ tws, tw.window ≠ w) :
    ((tws ++ [(⟨w, i⟩ : TrackedWindow)]).map TrackedWindow.window).Nodup := by
  rw [List.map_append]
  refine List.Nodup.append hnd (List.nodup_singleton w) ?_
  intro a ha hb
  simp only [List.map_cons, List.map_nil, List.mem_singleton] at hb
  subst hb
  obtain ⟨tw, htw, rfl⟩ := List.mem_map.1 ha
  exact hw tw htw rfl

/-- Appending the entry with frame i keeps every frame below i + k for
positive k. -/
theorem framesBounded_append (tws : List TrackedWindow) (w i k : Nat) (hk : 0 < k)
    (hbd : ∀ f ∈ tws.map TrackedWindow.frame, f < i) :
    ∀ f ∈ (tws ++ [(⟨w, i⟩ : TrackedWindow)]).map TrackedWindow.frame, f < i + k := by
  intro f hf
  rw [List.map_append] at hf
  rcases List.mem_append.1 hf with hl | hr
  · exact lt_of_lt_of_le (hbd f hl) (Nat.le_add_right i k)
  · simp only [List.map_cons, List.map_nil, List.mem_singleton] at hr
    subst hr
    exact Nat.lt_add_of_pos_right hk

/-- Removing entries keeps the frame handles pairwise distinct. -/
theorem framesNodup_filter (tws : List TrackedWindow) (q : TrackedWindow → Bool)
    (hnd : (tws.map TrackedWindow.frame).Nodup) :
    ((tws.filter q).map TrackedWindow.frame).Nodup :=
  List.Nodup.sublist (List.Sublist.map TrackedWindow.frame (List.filter_sublist tws)) hnd

/-- Removing entries keeps the window handles pairwise distinct. -/
theorem windowsNodup_filter (tws : List TrackedWindow) (q : TrackedWindow → Bool)
    (hnd : (tws.map TrackedWindow.window).Nodup) :
    ((tws.filter q).map TrackedWindow.window).Nodup :=
  List.Nodup.sublist (List.Sublist.map TrackedWindow.window (List.filter_sublist tws)) hnd

/-- Removing entries keeps every frame below the id counter. -/
theorem framesBounded_filter (tws : List TrackedWindow) (q : TrackedWindow → Bool)
    (i : Nat) (hbd : ∀ f ∈ tws.map TrackedWindow.frame, f < i) :
    ∀ f ∈ (tws.filter q).map TrackedWindow.frame, f < i := by
  intro f hf
  exact hbd f (List.Sublist.subset (List.Sublist.map TrackedWindow.frame
    (List.filter_sublist tws)) hf)

/-- One OSSetWindowParent call preserves distinctness and boundedness of the
frame handles. -/
theorem setParent_frames (env : XEnv) (st st' : EngineState) (w p : Nat)
    (ops : List XOp) (h : OSSetWindowParent env st w p = some (st', ops))
    (hnd : FramesNodup st) (hbd : FramesBounded st) :
    FramesNodup st' ∧ FramesBounded st' := by
  unfold OSSetWindowParent at h
  unfold FramesNodup FramesBounded at *
  split at h
  · split at h
    · split at h
      · split at h
        · exact absurd h (by simp)
        · split at h
          · injection h with h1
            injection h1 with hst hops
            subst hst
            exact ⟨framesNodup_append st.trackedWindows w st.nextId hnd hbd,
              framesBounded_append st.trackedWindows w st.nextId 2 (by omega) hbd⟩
          · injection h with h1
            injection h1 with hst hops
            subst hst
            exact ⟨framesNodup_append st.trackedWindows w st.nextId hnd hbd,
              framesBounded_append st.trackedWindows w st.nextId 1 (by omega) hbd⟩
      · injection h with h1
        injection h1 with hst hops
        subst hst
        exact ⟨hnd, hbd⟩
    · injection h with h1
      injection h1 with hst hops
      subst hst
      exact ⟨hnd, hbd⟩
  · split at h
    · injection h with h1
      injection h1 with hst hops
      subst hst
      exact ⟨hnd, hbd⟩
    · split at h
      · injection h with h1
        injection h1 with hst hops
        subst hst
        exact ⟨List.nodup_nil, by intro f hf; simp at hf⟩
      · injection h with h1
        injection h1 with hst hops
        subst hst
        exact ⟨framesNodup_filter st.trackedWindows _ hnd,
          framesBounded_filter st.trackedWindows _ st.nextId hbd⟩

/-- One OSSetWindowParent call preserves distinctness of the embedded window
handles, provided that an embed call only names a window that has no entry. -/
theorem setParent_windows (env : XEnv) (st st' : EngineState) (w p : Nat)
    (ops : List XOp) (h : OSSetWindowParent env st w p = some (st', ops))
    (hnd : WindowsNodup st)
    (hfresh : (p == 0 || st.trackedWindows.all (fun tw => tw.window != w)) = true) :
    WindowsNodup st' := by
  unfold OSSetWindowParent at h
  unfold WindowsNodup at *
  by_cases hp : p ≠ 0
  · rw [if_pos hp] at h
    have hall : ∀ tw ∈ st.trackedWindows, tw.window ≠ w := by
      simp only [Bool.or_eq_true, beq_iff_eq] at hfresh
      rcases hfresh with h0 | hall
      · exact absurd h0 hp
      · intro tw htw
        simpa using List.all_eq_true.1 hall tw htw
    split at h
    · split at h
      · split at h
        · exact absurd h (by simp)
        · split at h
          · injection h with h1
            injection h1 with hst hops
            subst hst
            exact windowsNodup_append st.trackedWindows w st.nextId hnd hall
          · injection h with h1
            injection h1 with hst hops
            subst hst
            exact windowsNodup_append st.trackedWindows w st.nextId hnd hall
      · injection h with h1
        injection h1 with hst hops
        subst hst
        exact hnd
    · injection h with h1
      injection h1 with hst hops
      subst hst
      exact hnd
  · rw [if_neg hp] at h
    split at h
    · injection h with h1
      injection h1 with hst hops
      subst hst
      exact hnd
    · split at h
      · injection h with h1
        injection h1 with hst hops
        subst hst
        simp
      · injection h with h1
        injection h1 with hst hops
        subst hst
        exact windowsNodup_filter st.trackedWindows _ hnd

/-- A successful replay preserves the frame invariants along the way. -/
theorem replay_frames (env : XEnv) : ∀ calls st st',
    replay env st calls = some st' → FramesNodup st → FramesBounded st →
    FramesNodup st' ∧ FramesBounded st' := by
  intro calls
  induction calls with
  | nil =>
    intro st st' h hnd hbd
    simp only [replay, Option.some.injEq] at h
    subst h
    exact ⟨hnd, hbd⟩
  | cons c rest ih =>
    intro st st' h hnd hbd
    obtain ⟨w, p⟩ := c
    simp only [replay] at h
    cases hstep : OSSetWindowParent env st w p with
    | none => rw [hstep] at h; simp at h
    | some pr =>
      obtain ⟨st2, ops⟩ := pr
      rw [hstep] at h
      simp only at h
      obtain ⟨hnd2, hbd2⟩ := setParent_frames env st st2 w p ops hstep hnd hbd
      exact ih st2 st' h hnd2 hbd2

/-- A successful replay whose embeds all name fresh windows preserves
distinctness of the embedded window handles. -/
theorem replay_windows (env : XEnv) : ∀ calls st st',
    replay env st calls = some st' → embedsFresh env st calls = true →
    WindowsNodup st → WindowsNodup st' := by
  intro calls
  induction calls with
  | nil =>
    intro st st' h _ hnd
    simp only [replay, Option.some.injEq] at h
    subst h
    exact hnd
  | cons c rest ih =>
    intro st st' h hf hnd
    obtain ⟨w, p⟩ := c
    simp only [replay] at h
    simp only [embedsFresh] at hf
    cases hstep : OSSetWindowParent env st w p with
    | none => rw [hstep] at h; simp at h
    | some pr =>
      obtain ⟨st2, ops⟩ := pr
      rw [hstep] at h
      rw [hstep] at hf
      simp only at h
      simp only [Bool.and_eq_true] at hf
      have hnd2 := setParent_windows env st st2 w p ops hstep hnd hf.1
      exact ih st2 st' h hf.2 hnd2

/-- C1 (amended): after any successful replay from the empty initial state,
the frame handles of the registry are pairwise distinct; and under the
additional discipline that every embed call names a window without a
current registry entry, the window handles are pairwise distinct as well. -/
theorem c1_amended_registry_nodup (env : XEnv) (n : Nat) (calls : List (Nat × Nat))
    (st' : EngineState) (hrep : replay env (initState n) calls = some st') :
    FramesNodup st' ∧
    (embedsFresh env (initState n) calls = true → WindowsNodup st') := by
  constructor
  · exact (replay_frames env calls (initState n) st' hrep
      (by simp [FramesNodup, initState])
      (by intro f hf; simp [initState] at hf)).1
  · intro hf
    exact replay_windows env calls (initState n) st' hrep hf
      (by simp [WindowsNodup, initState])

/-- C1 counterexample to the claim as stated: embedding window 1 twice in a
row (both calls succeed against envC1) leaves the registry with the window
handle 1 twice, so the window handles are not unique after this call
sequence. -/
theorem c1_counterexample :
    (replay envC1 (initState 10) [(1, 2), (1, 2)]).map
      (fun st => st.trackedWindows.map TrackedWindow.window) = some [1, 1] ∧
    ¬ ([1, 1] : List Nat).Nodup := ⟨by decide, by decide⟩

/-- Witness for c1_amended_registry_nodup: the replay embed 1, embed 3,
un-embed 1 satisfies the discipline and ends with registry entry 3 only. -/
theorem c1_witness :
    FramesNodup ⟨[⟨3, 12⟩], 13, true, true⟩ ∧ WindowsNodup ⟨[⟨3, 12⟩], 13, true, true⟩ := by
  have h := c1_amended_registry_nodup envC1 10 [(1, 2), (3, 2), (1, 0)]
    ⟨[⟨3, 12⟩], 13, true, true⟩ (by decide)
  exact ⟨h.1, h.2 (by decide)⟩

/-- The seed never exceeds the running maximum. -/
theorem le_maxFrom (L : List (Nat × Nat)) : ∀ d, d ≤ maxFrom d L := by
  induction L with
  | nil => intro d; simp [maxFrom]
  | cons cd L ih =>
    intro d
    simp only [maxFrom, List.foldl_cons]
    exact le_trans (le_max_left d cd.2) (ih (max d cd.2))

mutual
/-- The traversal equals a left fold of the deepest-match update over the
matching descendants in traversal order. -/
theorem getRs_eq_fold (prop : Nat → Option (List Char)) (t : XTree)
    (st : List Nat × Nat) (d : Nat) :
    GetRsHandlesRecursively prop t st d = List.foldl rsStep st (matchesIn prop t d) := by
  cases t with
  | node hh cs =>
    cases cs with
    | none => simp [GetRsHandlesRecursively, matchesIn]
    | some l =>
      simp only [GetRsHandlesRecursively, matchesIn]
      exact getRsChildren_eq_fold prop l st d

/-- Fold characterization of the child loop. -/
theorem getRsChildren_eq_fold (prop : Nat → Option (List Char)) (l : List XTree)
    (st : List Nat × Nat) (d : Nat) :
    getRsChildren prop l st d = List.foldl rsStep st (matchesInList prop l d) := by
  cases l with
  | nil => simp [getRsChildren, matchesInList]
  | cons t ts =>
    simp only [getRsChildren, matchesInList, List.foldl_append]
    rw [getRsChildren_eq_fold prop ts (GetRsHandlesRecursively prop t
      (if matchesClass prop t.handle then rsStep st (t.handle, d) else st) (d + 1)) d]
    rw [getRs_eq_fold prop t
      (if matchesClass prop t.handle then rsStep st (t.handle, d) else st) (d + 1)]
    congr 2
    cases hm : matchesClass prop t.handle <;> simp [hm]
end

/-- Folding the deepest-match update from an arbitrary accumulator: the
result keeps the accumulated output only when no later element is deeper,
appends every element at the final maximum depth, and returns that maximum. -/
theorem foldl_rsStep (L : List (Nat × Nat)) : ∀ (out : List Nat) (dmax : Nat),
    List.foldl rsStep (out, dmax) L =
      ((if maxFrom dmax L = dmax then out else []) ++
        (L.filter (fun cd => cd.2 == maxFrom dmax L)).map Prod.fst,
       maxFrom dmax L) := by
  induction L with
  | nil => intro out dmax; simp [maxFrom]
  | cons cd L ih =>
    intro out dmax
    obtain ⟨c, d⟩ := cd
    have hM : maxFrom dmax ((c, d) :: L) = maxFrom (max dmax d) L := by
      simp [maxFrom]
    rcases Nat.lt_trichotomy dmax d with hlt | heq | hgt
    · have hstep : rsStep (out, dmax) (c, d) = ([c], d) := by simp [rsStep, hlt]
      have hmax : max dmax d = d := Nat.max_eq_right (le_of_lt hlt)
      have hne : maxFrom d L ≠ dmax := by
        have := le_maxFrom L d
        omega
      rw [List.foldl_cons, hstep, ih, hM, hmax, if_neg hne]
      by_cases hdm : d = maxFrom d L
      · rw [if_pos hdm.symm]
        have hfc : ((c, d) :: L).filter (fun cd => cd.2 == maxFrom d L) =
            (c, d) :: L.filter (fun cd => cd.2 == maxFrom d L) := by
          simp only [List.filter_cons]
          rw [if_pos (by simpa using hdm)]
        rw [hfc]
        simp
      · rw [if_neg (fun hcon => hdm hcon.symm)]
        have hfc : ((c, d) :: L).filter (fun cd => cd.2 == maxFrom d L) =
            L.filter (fun cd => cd.2 == maxFrom d L) := by
          simp only [List.filter_cons]
          rw [if_neg (by simpa using hdm)]
        rw [hfc]
    · subst heq
      have hstep : rsStep (out, dmax) (c, dmax) = (out ++ [c], dmax) := by
        simp [rsStep]
      rw [List.foldl_cons, hstep, ih, hM, max_self]
      by_cases hm : maxFrom dmax L = dmax
      · rw [if_pos hm, if_pos hm]
        have hfc : ((c, dmax) :: L).filter (fun cd => cd.2 == maxFrom dmax L) =
            (c, dmax) :: L.filter (fun cd => cd.2 == maxFrom dmax L) := by
          simp only [List.filter_cons]
          rw [if_pos (by simpa using hm.symm)]
        rw [hfc]
        simp
      · rw [if_neg hm, if_neg hm]
        have hfc : ((c, dmax) :: L).filter (fun cd => cd.2 == maxFrom dmax L) =
            L.filter (fun cd => cd.2 == maxFrom dmax L) := by
          simp only [List.filter_cons]
          rw [if_neg (by simpa using fun hcon => hm hcon.symm)]
        rw [hfc]
    · have h1 : ¬ d > dmax := by omega
      have h2 : ¬ d = dmax := by omega
      have hstep : rsStep (out, dmax) (c, d) = (out, dmax) := by
        simp [rsStep, h1, h2]
      have hmax : max dmax d = dmax := Nat.max_eq_left (le_of_lt hgt)
      rw [List.foldl_cons, hstep, ih, hM, hmax]
      have hne : ¬ d = maxFrom dmax L := by
        have := le_maxFrom L dmax
        omega
      have hfc : ((c, d) :: L).filter (fun cd => cd.2 == maxFrom dmax L) =
          L.filter (fun cd => cd.2 == maxFrom dmax L) := by
        simp only [List.filter_cons]
        rw [if_neg (by simpa using hne)]
      rw [hfc]

mutual
/-- On a fully readable subtree, the matching descendants are exactly the
descendants filtered by the class test. -/
theorem matchesIn_eq_filter (prop : Nat → Option (List Char)) (t : XTree) (d : Nat)
    (h : allReadable t = true) :
    matchesIn prop t d = (descOf t d).filter (fun cd => matchesClass prop cd.1) := by
  cases t with
  | node hh cs =>
    cases cs with
    | none => simp [allReadable] at h
    | some l =>
      simp only [matchesIn, descOf]
      exact matchesInList_eq_filter prop l d (by simpa [allReadable] using h)

/-- Filter characterization over a child list. -/
theorem matchesInList_eq_filter (prop : Nat → Option (List Char)) (l : List XTree)
    (d : Nat) (h : allReadableList l = true) :
    matchesInList prop l d = (descList l d).filter (fun cd => matchesClass prop cd.1) := by
  cases l with
  | nil => simp [matchesInList, descList]
  | cons t ts =>
    simp only [allReadableList, Bool.and_eq_true] at h
    simp only [matchesInList, descList, List.filter_cons, List.filter_append]
    rw [matchesIn_eq_filter prop t (d + 1) h.1, matchesInList_eq_filter prop ts d h.2]
    by_cases hm : matchesClass prop t.handle
    · simp [hm]
    · simp [hm]
end

/-- C5: on a fully readable tree, discovery returns exactly the handles of
the descendants whose class property is readable, non-empty, below the read
cap and in the allow-list, restricted to those at the maximum depth at which
any such match occurs; in particular every returned handle passes the class
test, so a property whose reported length reaches the read cap is never
among the results. -/
theorem c5_discovery_deepest (prop : Nat → Option (List Char)) (tree : XTree)
    (h : allReadable tree = true) :
    OSGetRsHandles prop tree =
      (((descOf tree 0).filter (fun cd => matchesClass prop cd.1)).filter
        (fun cd => cd.2 ==
          maxFrom 0 ((descOf tree 0).filter (fun cd => matchesClass prop cd.1)))).map
        Prod.fst ∧
    ∀ c ∈ OSGetRsHandles prop tree, matchesClass prop c = true := by
  have heq : OSGetRsHandles prop tree =
      (((descOf tree 0).filter (fun cd => matchesClass prop cd.1)).filter
        (fun cd => cd.2 ==
          maxFrom 0 ((descOf tree 0).filter (fun cd => matchesClass prop cd.1)))).map
        Prod.fst := by
    unfold OSGetRsHandles
    rw [getRs_eq_fold prop tree ([], 0) 0, matchesIn_eq_filter prop tree 0 h,
      foldl_rsStep _ [] 0]
    simp
  refine ⟨heq, ?_⟩
  intro c hc
  rw [heq] at hc
  obtain ⟨cd, hcd, rfl⟩ := List.mem_map.1 hc
  exact (List.mem_filter.1 (List.mem_filter.1 hcd).1).2

/-- Witness for c5_discovery_deepest: the tree with matches at depths 2, 2
and 4 returns exactly the two depth-4 matches. -/
theorem c5_witness :
    allReadable treeC5 = true ∧ OSGetRsHandles propC5 treeC5 = [40, 41] := by
  have h := c5_discovery_deepest propC5 treeC5 (by decide)
  exact ⟨by decide, h.1.trans (by decide)⟩
